import Mathlib

/-!
Shallow embedding of the codecrafters-docker-rust runtime
(src/main.rs, src/sandbox.rs, src/images.rs, src/fs.rs) and proofs about it.

External effects (HTTP, the filesystem, the pipe) are modelled explicitly:
an HTTP exchange is a response value the code inspects, the filesystem is an
association list from paths to node contents, and the pipe is the byte list
the child wrote.  Functions are translated from the Rust source; `anyhow`
errors become an explicit error type and a panic (`unwrap`/`expect` failure)
is a distinct error constructor.
-/

namespace DockerSpec

/-! ## Generic association-list filesystem helpers -/

/-- Node in the modelled filesystem tree: a directory, a character device
(with mode bits and packed device number), or a regular file with contents. -/
inductive Node where
  | dir : Node
  | charDev (mode : Nat) (dev : Nat) : Node
  | file (content : List Char) : Node
deriving DecidableEq, Repr

/-- A filesystem is a finite map from paths to nodes, as an association list;
later inserts replace earlier bindings in place. -/
abbrev Fs := List (String × Node)

/-- Insert or replace a binding; replacement happens in place, a fresh key is
appended at the end (so creation order is observable, like directory order). -/
def fsInsert (fs : Fs) (k : String) (v : Node) : Fs :=
  match fs with
  | [] => [(k, v)]
  | (k0, v0) :: rest =>
      if k0 = k then (k, v) :: rest else (k0, v0) :: fsInsert rest k v

/-- Look up a path in the modelled filesystem. -/
def fsLookup (fs : Fs) (k : String) : Option Node :=
  match fs with
  | [] => none
  | (k0, v0) :: rest => if k0 = k then some v0 else fsLookup rest k

/-- Contents of a regular file at a path, empty when absent or not a file. -/
def fsFileContent (fs : Fs) (k : String) : List Char :=
  match fsLookup fs k with
  | some (.file c) => c
  | _ => []

/-! ## JSON value model (for serde_json::Value) -/

/-- Model of a serde_json::Value. -/
inductive Json where
  | null : Json
  | str (s : String) : Json
  | num (n : Int) : Json
  | arr (xs : List Json) : Json
  | obj (fields : List (String × Json)) : Json

/-- Model of serde_json Value indexing `data["key"]`: missing keys and
non-objects yield Null, exactly as serde_json's Index does. -/
def jsonIndex (j : Json) (key : String) : Json :=
  match j with
  | .obj fields =>
      match fields.lookup key with
      | some v => v
      | none => .null
  | _ => .null

/-- Model of Value::as_str. -/
def Json.asStr : Json → Option String
  | .str s => some s
  | _ => none

/-- Model of deserializing a JSON number into an unsigned integer field. -/
def Json.asNat : Json → Option Nat
  | .num n => if 0 ≤ n then some n.toNat else none
  | _ => none

/-- Model of Value::as_array for deserializing a JSON array. -/
def Json.asArr : Json → Option (List Json)
  | .arr xs => some xs
  | _ => none

/-! ## Registry client model (src/images.rs) -/

/-- An HTTP response whose body the code treats as JSON. -/
structure HttpResponse where
  status : Nat
  body : Json

/-- A streaming blob response: the body arrives as a sequence of chunks
(`response.chunk()` in the source); the blob is the join of the chunks. -/
structure BlobResponse where
  status : Nat
  chunks : List (List Char)
deriving DecidableEq, Repr

/-- The network environment a client runs against: what the auth endpoint,
the manifest endpoint and each blob endpoint answer. -/
structure RegistryEnv where
  tokenResp : HttpResponse
  manifestResp : HttpResponse
  blobResp : String → BlobResponse

/-- Errors surfaced by the modelled runtime.  `registryError` is the anyhow
message built from an HTTP status in the source; `unwrapFailure` models a
panic from `unwrap`/`expect`; `parseFailure` a serde deserialization error;
`extractionError` an archive open/decompress/unpack failure. -/
inductive RunError where
  | registryError (status : Nat) : RunError
  | unwrapFailure : RunError
  | parseFailure : RunError
  | extractionError (msg : String) : RunError
deriving DecidableEq, Repr

/-- Whether an error is a registry-style error carrying an HTTP status. -/
def RunError.isRegistryError : RunError → Bool
  | .registryError _ => true
  | _ => false

/-- Model of reqwest StatusCode::is_success (2xx). -/
def isSuccess (status : Nat) : Bool :=
  200 ≤ status && status < 300

/-- Mutable state of a DockerRegistryClient: the cached token field, plus an
instrumentation counter of completed token fetches (network calls to the
auth endpoint that populated the cache). -/
structure ClientState where
  token : Option String
  tokenFetches : Nat
deriving DecidableEq, Repr

/-- A freshly constructed client (DockerRegistryClient::for_image): no token
cached, no fetches performed. -/
def ClientState.fresh : ClientState := ⟨none, 0⟩

/-- Model of DockerRegistryClient::get_token: on a successful response,
extract body["token"].as_str(); the source calls `.unwrap()` on that
Option, so a missing or non-string `token` field panics.  On a
non-successful response, an error carrying the HTTP status is returned. -/
def get_token (env : RegistryEnv) : Except RunError String :=
  let resp := env.tokenResp
  if isSuccess resp.status then
    match (jsonIndex resp.body "token").asStr with
    | some t => .ok t
    | none => .error .unwrapFailure
  else
    .error (.registryError resp.status)

/-- Model of DockerRegistryClient::ensure_token: return at once when the
token is cached, otherwise fetch it and populate the cache.  The state is
returned alongside the result because the Rust `self` survives an `Err`. -/
def ensure_token (env : RegistryEnv) (st : ClientState) :
    ClientState × Except RunError Unit :=
  match st.token with
  | some _ => (st, .ok ())
  | none =>
      match get_token env with
      | .ok t => (⟨some t, st.tokenFetches + 1⟩, .ok ())
      | .error e => (⟨none, st.tokenFetches + 1⟩, .error e)

/-- A parsed manifest layer descriptor (DockerManifestLayer). -/
structure DockerManifestLayer where
  media_type : String
  size : Nat
  digest : String
deriving DecidableEq, Repr

/-- The parsed manifest config descriptor (DockerManifestConfig). -/
structure DockerManifestConfig where
  media_type : String
  size : Nat
  digest : String
deriving DecidableEq, Repr

/-- The parsed manifest (DockerManifest). -/
structure DockerManifest where
  schema_version : Nat
  media_type : String
  config : DockerManifestConfig
  layers : List DockerManifestLayer
deriving DecidableEq, Repr

/-- Model of serde deserialization of one layer descriptor: every field must
be present with the right type. -/
def parseLayer (j : Json) : Option DockerManifestLayer := do
  let mt ← (jsonIndex j "mediaType").asStr
  let sz ← (jsonIndex j "size").asNat
  let dg ← (jsonIndex j "digest").asStr
  pure ⟨mt, sz, dg⟩

/-- Model of serde deserialization of the config descriptor. -/
def parseConfig (j : Json) : Option DockerManifestConfig := do
  let mt ← (jsonIndex j "mediaType").asStr
  let sz ← (jsonIndex j "size").asNat
  let dg ← (jsonIndex j "digest").asStr
  pure ⟨mt, sz, dg⟩

/-- Model of serde deserialization of a sequence of layer descriptors:
elementwise, in order, failing when any element fails. -/
def parseLayers : List Json → Option (List DockerManifestLayer)
  | [] => some []
  | j :: rest => do
      let l ← parseLayer j
      let ls ← parseLayers rest
      pure (l :: ls)

/-- Model of serde deserialization of a DockerManifest from a JSON value:
the layers array is deserialized elementwise, in order. -/
def parseManifest (j : Json) : Option DockerManifest := do
  let sv ← (jsonIndex j "schemaVersion").asNat
  let mt ← (jsonIndex j "mediaType").asStr
  let cfg ← parseConfig (jsonIndex j "config")
  let layersJson ← (jsonIndex j "layers").asArr
  let layers ← parseLayers layersJson
  pure ⟨sv, mt, cfg, layers⟩

/-- Model of DockerRegistryClient::get_manifest: ensure the token, request
the manifest, fail with the HTTP status on a non-success response, then
deserialize the body. -/
def get_manifest (env : RegistryEnv) (st : ClientState) :
    ClientState × Except RunError DockerManifest :=
  match ensure_token env st with
  | (st1, .error e) => (st1, .error e)
  | (st1, .ok _) =>
      let resp := env.manifestResp
      if isSuccess resp.status then
        match parseManifest resp.body with
        | some m => (st1, .ok m)
        | none => (st1, .error .parseFailure)
      else
        (st1, .error (.registryError resp.status))

/-! ### Chunked file writing (download_layer)

The destination file is opened with `write(true).create(true)` and NO
`truncate(true)`: an existing file keeps its bytes and writes overwrite it
from position 0, so a longer pre-existing file keeps its tail. -/

/-- Overwrite `chunk` into `content` at byte position `pos`. -/
def overwriteAt (content chunk : List Char) (pos : Nat) : List Char :=
  content.take pos ++ chunk ++ content.drop (pos + chunk.length)

/-- Write the chunks one after another starting at position `pos`. -/
def writeFrom (content : List Char) (pos : Nat) : List (List Char) → List Char
  | [] => content
  | c :: cs => writeFrom (overwriteAt content c pos) (pos + c.length) cs

/-- Model of the download loop: each chunk of the body is written to the file
as it arrives (`file.write_all(chunk)`), never buffering the whole body. -/
def writeChunks (content : List Char) (chunks : List (List Char)) : List Char :=
  writeFrom content 0 chunks

/-- Model of DockerRegistryClient::download_layer: ensure the token, request
the blob, fail with the HTTP status on non-success; otherwise open `dest`
(created empty when absent, existing content kept — no truncation) and write
the body chunk by chunk. -/
def download_layer (env : RegistryEnv) (st : ClientState) (fs : Fs)
    (dest digest _media_type : String) :
    ClientState × Fs × Except RunError Unit :=
  match ensure_token env st with
  | (st1, .error e) => (st1, fs, .error e)
  | (st1, .ok _) =>
      let resp := env.blobResp digest
      if isSuccess resp.status then
        let orig := fsFileContent fs dest
        (st1, fsInsert fs dest (.file (writeChunks orig resp.chunks)), .ok ())
      else
        (st1, fs, .error (.registryError resp.status))

/-- One observable client call, for stating the token-caching invariant. -/
inductive ClientCall where
  | getManifestCall : ClientCall
  | downloadLayerCall (dest digest media_type : String) : ClientCall

/-- Run a sequence of consecutive client calls on one client instance,
stopping at the first error (the Bool records whether all calls succeeded). -/
def runCalls (env : RegistryEnv) :
    ClientState → Fs → List ClientCall → ClientState × Fs × Bool
  | st, fs, [] => (st, fs, true)
  | st, fs, call :: rest =>
      match call with
      | .getManifestCall =>
          match get_manifest env st with
          | (st1, .ok _) => runCalls env st1 fs rest
          | (st1, .error _) => (st1, fs, false)
      | .downloadLayerCall dest digest mt =>
          match download_layer env st fs dest digest mt with
          | (st1, fs1, .ok _) => runCalls env st1 fs1 rest
          | (st1, fs1, .error _) => (st1, fs1, false)

/-! ## Decimal integer printing and parsing

Models serde_json's serialization of an i32 field and its deserialization,
at the precision the pipe protocol needs: `to_string` on `ChildStatus`
produces `{"status":<decimal int>}` and `from_slice` parses it back. -/

/-- The ten decimal digit characters. -/
def digitToChar (d : Nat) : Char :=
  match d with
  | 0 => '0' | 1 => '1' | 2 => '2' | 3 => '3' | 4 => '4'
  | 5 => '5' | 6 => '6' | 7 => '7' | 8 => '8' | _ => '9'

/-- Whether a character is a decimal digit. -/
def isDigitChar (c : Char) : Bool :=
  '0' ≤ c && c ≤ '9'

/-- Numeric value of a digit character. -/
def digitVal (c : Char) : Nat :=
  c.toNat - 48

/-- Print the digits of a positive number in front of `acc`; the fuel
argument only bounds the recursion depth (any fuel at least the number
itself is enough), keeping the definition structurally recursive. -/
def natToCharsAux (fuel : Nat) (n : Nat) (acc : List Char) : List Char :=
  match fuel with
  | 0 => acc
  | f + 1 => if n = 0 then acc else natToCharsAux f (n / 10) (digitToChar (n % 10) :: acc)

/-- Decimal representation of a natural number. -/
def natToChars (n : Nat) : List Char :=
  if n = 0 then ['0'] else natToCharsAux n n []

/-- Decimal representation of an integer (minus sign for negatives). -/
def intToChars (i : Int) : List Char :=
  if i < 0 then '-' :: natToChars i.natAbs else natToChars i.toNat

/-- Parse a non-empty all-digit character list as a natural number. -/
def parseDigits (cs : List Char) : Option Nat :=
  if cs = [] then none
  else if cs.all isDigitChar then
    some (cs.foldl (fun a c => a * 10 + digitVal c) 0)
  else none

/-- Parse an optionally-signed decimal integer. -/
def parseInt (cs : List Char) : Option Int :=
  if cs.head? = some '-' then (parseDigits cs.tail).map (fun n => -(n : Int))
  else (parseDigits cs).map (fun n => (n : Int))

/-- Remove `p` from the front of `s` when it is there. -/
def stripLead : List Char → List Char → Option (List Char)
  | [], s => some s
  | _ :: _, [] => none
  | p :: ps, c :: cs => if c = p then stripLead ps cs else none

/-- Remove `suf` from the end of `s` when it is there. -/
def stripEnd (suf s : List Char) : Option (List Char) :=
  (stripLead suf.reverse s.reverse).map List.reverse

/-! ## Exit channel (src/sandbox.rs: ChildStatus, child branch, consume_output) -/

/-- The structured status message relayed from child to parent. -/
structure ChildStatus where
  status : Int
deriving DecidableEq, Repr

/-- The status the child serializes: `output.status.code().unwrap_or(-1)` —
the command's exit code, or the sentinel -1 when there is none (for example
when the command was terminated by a signal). -/
def childStatusOfExit (code : Option Int) : ChildStatus :=
  ⟨code.getD (-1)⟩

/-- Model of serde_json::to_string on a ChildStatus. -/
def serializeChildStatus (s : ChildStatus) : List Char :=
  "\x7b\"status\":".data ++ intToChars s.status ++ "\x7d".data

/-- Model of serde_json::from_slice into a ChildStatus. -/
def parseChildStatus (cs : List Char) : Option ChildStatus := do
  let rest ← stripLead "\x7b\"status\":".data cs
  let body ← stripEnd "\x7d".data rest
  let n ← parseInt body
  pure ⟨n⟩

/-- Observable pipe-side effects of consume_output: how many read calls were
made, the buffer size handed to each, and whether the read end was closed. -/
structure PipeTrace where
  reads : Nat
  bufSize : Nat
  closed : Bool
deriving DecidableEq, Repr

/-- Model of Sandbox::consume_output: one blocking `read` into a 1024-byte
buffer, close the read end, deserialize the bytes read as a ChildStatus
(`expect` on a malformed message panics — modelled as `none`). -/
def consume_output (pipeData : List Char) : Option ChildStatus × PipeTrace :=
  let buf := pipeData.take 1024
  (parseChildStatus buf, ⟨1, 1024, true⟩)

/-! ## Image reference parsing (src/sandbox.rs: Sandbox::run) -/

/-- Model of Rust str::split on a single separator character: at least one
segment always, empty segments kept. -/
def splitChar (sep : Char) : List Char → List (List Char)
  | [] => [[]]
  | c :: rest =>
      let r := splitChar sep rest
      if c = sep then [] :: r else (c :: r.headD []) :: r.tail

/-- Model of the image-token parsing in Sandbox::run: split on a colon, the
name is segment 0, the tag segment 1 when present and "latest" otherwise. -/
def parse_image (image : String) : String × String :=
  let parts := splitChar ':' image.data
  let name := parts.headD []
  let tag := match parts.get? 1 with
    | some t => t
    | none => "latest".data
  (⟨name⟩, ⟨tag⟩)

/-! ## Device node creation (src/sandbox.rs: create_dev_null) -/

/-- Model of glibc makedev (as used by nix::sys::stat::makedev): packs major
and minor into one device number. -/
def makedev (major minor : Nat) : Nat :=
  ((major &&& 0xfffff000) <<< 32) ||| ((major &&& 0xfff) <<< 8) |||
    ((minor &&& 0xffffff00) <<< 12) ||| (minor &&& 0xff)

/-- Major number packed inside a device number. -/
def devMajor (dev : Nat) : Nat :=
  ((dev >>> 32) &&& 0xfffff000) ||| ((dev >>> 8) &&& 0xfff)

/-- Minor number packed inside a device number. -/
def devMinor (dev : Nat) : Nat :=
  ((dev >>> 12) &&& 0xffffff00) ||| (dev &&& 0xff)

/-- Model of nix Mode::from_bits_truncate: keep only the valid mode bits
(the twelve permission/suid/sgid/sticky bits, mask 0o7777). -/
def modeFromBitsTruncate (bits : Nat) : Nat :=
  bits &&& 0o7777

/-- Model of create_dev_null: create the `dev` directory inside the root and
mknod a character device `dev/null` with mode from_bits_truncate(666) — the
literal 666 is decimal — and device number makedev(1, 3). -/
def create_dev_null (root : Fs) : Fs :=
  let root1 := fsInsert root "dev" .dir
  fsInsert root1 "dev/null" (.charDev (modeFromBitsTruncate 666) (makedev 1 3))

/-! ## Layer extraction (src/sandbox.rs: extract_layers)

A downloaded archive, after gzip decoding and tar reading (both external
libraries), is a list of entries in archive order; opening/decoding can
fail, which the model captures by letting each archive be an
`Except String (List (String × Node))`. -/

/-- Entries of one decoded archive, in the order the tar stream yields
them. -/
abbrev ArchiveEntries := List (String × Node)

/-- Unpack one archive's entries into the destination, overwriting existing
entries (tar unpack semantics). -/
def applyEntries (dest : Fs) (entries : ArchiveEntries) : Fs :=
  entries.foldl (fun fs e => fsInsert fs e.1 e.2) dest

/-- Unpack a list of successfully decoded archives, in order. -/
def applyArchives (dest : Fs) (archives : List ArchiveEntries) : Fs :=
  archives.foldl applyEntries dest

/-- Model of extract_layers: for each archive in the given order, open,
decompress and unpack it into `dest`; the first failure stops the loop and
is returned, with `dest` keeping everything already extracted. -/
def extract_layers (archives : List (Except String ArchiveEntries))
    (dest : Fs) : Option String × Fs :=
  match archives with
  | [] => (none, dest)
  | a :: rest =>
      match a with
      | .error e => (some e, dest)
      | .ok entries => extract_layers rest (applyEntries dest entries)

/-- Last value bound to `p` by an entry list, if any. -/
def lastValue (entries : ArchiveEntries) (p : String) : Option Node :=
  match entries with
  | [] => none
  | (k, v) :: rest =>
      match lastValue rest p with
      | some w => some w
      | none => if k = p then some v else none

/-! ## Image pull (src/sandbox.rs: pull_image_layers) -/

/-- Position of the first occurrence of `c`, model of Rust str::find. -/
def findChar (c : Char) : List Char → Option Nat
  | [] => none
  | x :: rest =>
      if x = c then some 0
      else (findChar c rest).map (· + 1)

/-- The local filename chosen for a layer blob: everything after the first
colon of the digest (`&layer.digest[(split_pos + 1)..]`); the source calls
`expect` when the digest has no colon, modelled as `none`. -/
def layerHash (digest : String) : Option String :=
  match findChar ':' digest.data with
  | some i => some ⟨digest.data.drop (i + 1)⟩
  | none => none

/-- Model of Path::join for the joins the source performs (a directory plus
a relative file or directory name). -/
def pathJoin (dir name : String) : String :=
  if dir.endsWith "/" then dir ++ name else dir ++ "/" ++ name

/-- The download loop of pull_image_layers over the manifest's layers, in
order, pushing each destination path onto the accumulator. -/
def pullLayersLoop (env : RegistryEnv) (destDir : String) :
    ClientState → Fs → List DockerManifestLayer → List String →
    ClientState × Fs × Except RunError (List String)
  | st, fs, [], acc => (st, fs, .ok acc)
  | st, fs, layer :: rest, acc =>
      match layerHash layer.digest with
      | none => (st, fs, .error .unwrapFailure)
      | some hash =>
          let destFile := pathJoin destDir hash
          match download_layer env st fs destFile layer.digest layer.media_type with
          | (st1, fs1, .ok _) =>
              pullLayersLoop env destDir st1 fs1 rest (acc ++ [destFile])
          | (st1, fs1, .error e) => (st1, fs1, .error e)

/-- Model of pull_image_layers: construct a fresh client for the image,
fetch the manifest, then download every layer into `destDir`, returning the
destination paths in manifest order. -/
def pull_image_layers (env : RegistryEnv) (destDir : String) (fs : Fs) :
    ClientState × Fs × Except RunError (List String) :=
  match get_manifest env ClientState.fresh with
  | (st1, .error e) => (st1, fs, .error e)
  | (st1, .ok m) => pullLayersLoop env destDir st1 fs m.layers []

/-! ## Root filesystem builder (src/sandbox.rs: init_sandbox_root)

The mount-table operations (the self bind mount and the defensive unmount of
the old-root path) change the mount table, not directory contents, and are
not part of the content model.  Decoding a downloaded archive (gzip + tar)
is external, passed in as `decode`. -/

/-- Model of init_sandbox_root with an empty fresh temporary root: bind
mount it, create dev/null, create tmp/ and the old_root escape point, pull
the image's layers into the /tmp/ scratch area, extract them into the root
in order, then delete the downloaded archives from the scratch area. -/
def init_sandbox_root (env : RegistryEnv)
    (decode : List Char → Except String ArchiveEntries) (scratch : Fs) :
    Except RunError Fs :=
  let root : Fs := []
  let root := create_dev_null root
  let root := fsInsert root "tmp" .dir
  let root := fsInsert root "old_root" .dir
  match pull_image_layers env "/tmp/" scratch with
  | (_, _, .error e) => .error e
  | (_, scratch1, .ok archivePaths) =>
      let decoded := archivePaths.map (fun p => decode (fsFileContent scratch1 p))
      match extract_layers decoded root with
      | (some e, _) => .error (.extractionError e)
      | (none, root1) => .ok root1

/-! ## CLI surface (src/main.rs) -/

/-- Model of Sandbox::run as observed by main: when sandbox construction
(init_sandbox_root) fails the error propagates before the fork, so the
command is never executed; on success the child runs the command and writes
the serialized ChildStatus to the pipe. -/
def sandbox_run (setup : Except RunError Unit) (childExit : Option Int) :
    Except RunError (List Char) :=
  match setup with
  | .error e => .error e
  | .ok _ => .ok (serializeChildStatus (childStatusOfExit childExit))

/-- What main does, as observed from outside: the process exit code, how
many diagnostic lines were printed, and whether the target command was
executed. -/
structure MainResult where
  exitCode : Int
  diagnosticLines : Nat
  commandExecuted : Bool
deriving DecidableEq, Repr

/-- Model of main: on Ok, consume the child's status message and exit with
its status (none models the panic on a malformed message); on Err, print
one diagnostic line and exit with -1 without ever running the command. -/
def main_model (setup : Except RunError Unit) (childExit : Option Int) :
    Option MainResult :=
  match sandbox_run setup childExit with
  | .ok pipeData =>
      match (consume_output pipeData).1 with
      | some st => some ⟨st.status, 0, true⟩
      | none => none
  | .error _ => some ⟨-1, 1, false⟩

/-! ## Concrete fixtures used to evaluate the model -/

/-- Fixture: the auth endpoint answers 200 with a body lacking a token field. -/
def envMissingToken : RegistryEnv :=
  ⟨⟨200, .obj []⟩, ⟨200, .null⟩, fun _ => ⟨404, []⟩⟩

/-- Fixture: the auth endpoint answers 500. -/
def envBadToken : RegistryEnv :=
  ⟨⟨500, .null⟩, ⟨200, .null⟩, fun _ => ⟨404, []⟩⟩

/-- Fixture: auth works and every blob endpoint streams the two one-byte
chunks x then y. -/
def envBlobXY : RegistryEnv :=
  ⟨⟨200, .obj [("token", .str "t")]⟩, ⟨200, .null⟩, fun _ => ⟨200, [['x'], ['y']]⟩⟩

/-- Fixture: a destination that already holds a four-byte file at "f". -/
def fsPrior : Fs := [("f", .file "abcd".data)]

/-- Fixture: a well-formed manifest JSON value with zero layers. -/
def manifestJsonEmpty : Json :=
  .obj [("schemaVersion", .num 2), ("mediaType", .str "mt"),
    ("config", .obj [("mediaType", .str "ct"), ("size", .num 0),
      ("digest", .str "sha256:c")]),
    ("layers", .arr [])]

/-- Fixture: auth works and the manifest endpoint serves the zero-layer
manifest. -/
def envEmptyManifest : RegistryEnv :=
  ⟨⟨200, .obj [("token", .str "t")]⟩, ⟨200, manifestJsonEmpty⟩, fun _ => ⟨404, []⟩⟩

/-- Fixture: the parsed zero-layer manifest. -/
def mEmpty : DockerManifest := ⟨2, "mt", ⟨"ct", 0, "sha256:c"⟩, []⟩

/-! ## Lemmas: decimal printing and parsing round trip -/

theorem natToCharsAux_zero (fuel : Nat) (acc : List Char) :
    natToCharsAux fuel 0 acc = acc := by
  cases fuel <;> simp [natToCharsAux]

theorem natToCharsAux_append (fuel : Nat) : ∀ (n : Nat) (acc : List Char),
    natToCharsAux fuel n acc = natToCharsAux fuel n [] ++ acc := by
  induction fuel with
  | zero => intro n acc; simp [natToCharsAux]
  | succ f ih =>
      intro n acc
      by_cases hn : n = 0
      · simp [natToCharsAux, hn]
      · simp only [natToCharsAux, if_neg hn]
        rw [ih (n / 10) (digitToChar (n % 10) :: acc),
          ih (n / 10) [digitToChar (n % 10)]]
        simp

theorem digitToChar_isDigit (d : Nat) (h : d < 10) :
    isDigitChar (digitToChar d) = true := by
  interval_cases d <;> rfl

theorem digitVal_digitToChar (d : Nat) (h : d < 10) :
    digitVal (digitToChar d) = d := by
  interval_cases d <;> rfl

theorem natToCharsAux_all_digits (fuel : Nat) : ∀ n : Nat,
    (natToCharsAux fuel n []).all isDigitChar = true := by
  induction fuel with
  | zero => intro n; simp [natToCharsAux]
  | succ f ih =>
      intro n
      by_cases hn : n = 0
      · simp [natToCharsAux, hn]
      · simp only [natToCharsAux, if_neg hn]
        rw [natToCharsAux_append, List.all_append]
        simp only [Bool.and_eq_true]
        exact ⟨ih (n / 10), by
          simp [List.all_cons, digitToChar_isDigit _ (Nat.mod_lt _ (by norm_num))]⟩

theorem natToCharsAux_ne_nil (fuel n : Nat) (h : 0 < n) (hf : n ≤ fuel) :
    natToCharsAux fuel n [] ≠ [] := by
  cases fuel with
  | zero => omega
  | succ f =>
      simp only [natToCharsAux, if_neg (by omega : ¬ n = 0)]
      rw [natToCharsAux_append]
      simp

theorem foldl_natToCharsAux (fuel : Nat) : ∀ (n : Nat), 0 < n → n ≤ fuel →
    ∀ (a : Nat),
    (natToCharsAux fuel n []).foldl (fun x c => x * 10 + digitVal c) a =
      a * 10 ^ (natToCharsAux fuel n []).length + n := by
  induction fuel with
  | zero => intro n h1 h2 a; omega
  | succ f ih =>
      intro n hp hf a
      have hmod : n % 10 < 10 := Nat.mod_lt _ (by norm_num)
      have hdm : 10 * (n / 10) + n % 10 = n := Nat.div_add_mod n 10
      simp only [natToCharsAux, if_neg (by omega : ¬ n = 0)]
      rw [natToCharsAux_append]
      rcases Nat.eq_zero_or_pos (n / 10) with h10 | h10
      · rw [h10, natToCharsAux_zero]
        simp only [List.nil_append, List.foldl_cons, List.foldl_nil,
          List.length_cons, List.length_nil]
        rw [digitVal_digitToChar _ hmod]
        have hsmall : n % 10 = n := by omega
        rw [hsmall, pow_one]
      · have hf2 : n / 10 ≤ f := by
          have := Nat.div_lt_self hp (by norm_num : (1 : Nat) < 10)
          omega
        rw [List.foldl_append, List.length_append]
        simp only [List.foldl_cons, List.foldl_nil, List.length_cons, List.length_nil]
        rw [ih (n / 10) h10 hf2 a, digitVal_digitToChar _ hmod]
        calc (a * 10 ^ (natToCharsAux f (n / 10) []).length + n / 10) * 10
              + n % 10
            = a * (10 ^ (natToCharsAux f (n / 10) []).length * 10)
              + (10 * (n / 10) + n % 10) := by ring
          _ = a * 10 ^ ((natToCharsAux f (n / 10) []).length + (0 + 1))
              + n := by rw [hdm]; ring

theorem natToChars_all_digits (n : Nat) : (natToChars n).all isDigitChar = true := by
  unfold natToChars
  split
  · rfl
  · exact natToCharsAux_all_digits n n

theorem natToChars_ne_nil (n : Nat) : natToChars n ≠ [] := by
  unfold natToChars
  split
  · simp
  · exact natToCharsAux_ne_nil n n (by omega) le_rfl

theorem parseDigits_natToChars (n : Nat) : parseDigits (natToChars n) = some n := by
  rcases Nat.eq_zero_or_pos n with h | h
  · subst h; rfl
  · have hne : natToChars n ≠ [] := natToChars_ne_nil n
    have heq : natToChars n = natToCharsAux n n [] := by
      unfold natToChars; rw [if_neg (by omega)]
    unfold parseDigits
    rw [if_neg hne, heq, if_pos (natToCharsAux_all_digits n n),
      foldl_natToCharsAux n n h le_rfl 0]
    simp

theorem parseInt_all_digits (cs : List Char) (hne : cs ≠ [])
    (hall : cs.all isDigitChar = true) :
    parseInt cs = (parseDigits cs).map (fun n => (n : Int)) := by
  match cs with
  | c :: rest =>
    have hc : isDigitChar c = true := by
      simp only [List.all_cons, Bool.and_eq_true] at hall
      exact hall.1
    have hcm : ¬((c :: rest).head? = some '-') := by
      intro h
      simp only [List.head?_cons, Option.some.injEq] at h
      subst h
      exact absurd hc (by decide)
    unfold parseInt
    rw [if_neg hcm]

theorem parseInt_intToChars (i : Int) : parseInt (intToChars i) = some i := by
  unfold intToChars
  split
  · next h =>
    unfold parseInt
    rw [if_pos (by simp), List.tail_cons, parseDigits_natToChars]
    simp only [Option.some_bind, Option.map_some', Option.some.injEq, bind, pure]
    omega
  · next h =>
    rw [parseInt_all_digits _ (natToChars_ne_nil _) (natToChars_all_digits _),
      parseDigits_natToChars]
    simp only [Option.some_bind, Option.map_some', Option.some.injEq, bind, pure]
    omega

theorem stripLead_append (p r : List Char) : stripLead p (p ++ r) = some r := by
  induction p with
  | nil => rfl
  | cons c cs ih => simp [stripLead, ih]

theorem stripEnd_append (suf r : List Char) : stripEnd suf (r ++ suf) = some r := by
  unfold stripEnd
  rw [List.reverse_append, stripLead_append]
  simp

theorem parseChildStatus_serialize (s : ChildStatus) :
    parseChildStatus (serializeChildStatus s) = some s := by
  unfold parseChildStatus serializeChildStatus
  rw [List.append_assoc, stripLead_append]
  simp only [Option.bind_eq_bind, Option.some_bind]
  rw [stripEnd_append]
  simp only [Option.some_bind]
  rw [parseInt_intToChars]
  rfl

/-! ## Lemmas: the association-list filesystem -/

theorem fsLookup_fsInsert (fs : Fs) (k p : String) (v : Node) :
    fsLookup (fsInsert fs k v) p = if k = p then some v else fsLookup fs p := by
  induction fs with
  | nil => simp [fsInsert, fsLookup]
  | cons hd t ih =>
    obtain ⟨k0, v0⟩ := hd
    by_cases hk : k0 = k
    · subst hk
      simp only [fsInsert, if_pos rfl, fsLookup]
      by_cases hp : k0 = p <;> simp [hp]
    · simp only [fsInsert, if_neg hk, fsLookup]
      by_cases hp : k0 = p
      · subst hp
        have : ¬(k = k0) := fun h => hk h.symm
        simp [this]
      · simp [hp, ih]

theorem fsLookup_fsInsert_self (fs : Fs) (k : String) (v : Node) :
    fsLookup (fsInsert fs k v) k = some v := by
  rw [fsLookup_fsInsert, if_pos rfl]

/-! ## Lemmas: layer extraction -/

theorem applyEntries_cons (fs : Fs) (k : String) (v : Node) (rest : ArchiveEntries) :
    applyEntries fs ((k, v) :: rest) = applyEntries (fsInsert fs k v) rest := by
  simp [applyEntries]

theorem lastValue_cons (k : String) (v : Node) (rest : ArchiveEntries) (p : String) :
    lastValue ((k, v) :: rest) p =
      match lastValue rest p with
      | some w => some w
      | none => if k = p then some v else none := rfl

theorem fsLookup_applyEntries (es : ArchiveEntries) (fs : Fs) (p : String) :
    fsLookup (applyEntries fs es) p =
      match lastValue es p with
      | some v => some v
      | none => fsLookup fs p := by
  induction es generalizing fs with
  | nil => simp [applyEntries, lastValue]
  | cons e rest ih =>
    obtain ⟨k, v⟩ := e
    rw [applyEntries_cons, ih, lastValue_cons]
    cases hl : lastValue rest p with
    | some w => simp
    | none =>
        simp only [fsLookup_fsInsert]
        by_cases hk : k = p <;> simp [hk]

theorem extract_layers_ok (goods : List ArchiveEntries) (dest : Fs) :
    extract_layers (goods.map Except.ok) dest = (none, applyArchives dest goods) := by
  induction goods generalizing dest with
  | nil => simp [extract_layers, applyArchives]
  | cons g gs ih => simp [extract_layers, applyArchives, ih]

theorem extract_layers_fail (goods : List ArchiveEntries) (e : String)
    (rest : List (Except String ArchiveEntries)) (dest : Fs) :
    extract_layers (goods.map Except.ok ++ Except.error e :: rest) dest =
      (some e, applyArchives dest goods) := by
  induction goods generalizing dest with
  | nil => simp [extract_layers, applyArchives]
  | cons g gs ih => simp [extract_layers, applyArchives, ih]

theorem applyArchives_append_single (dest : Fs) (goods : List ArchiveEntries)
    (last : ArchiveEntries) :
    applyArchives dest (goods ++ [last]) = applyEntries (applyArchives dest goods) last := by
  simp [applyArchives]

/-! ## Lemmas: character splitting (image reference parsing) -/

theorem splitChar_ne_nil (sep : Char) (s : List Char) : splitChar sep s ≠ [] := by
  induction s with
  | nil => simp [splitChar]
  | cons c rest ih =>
    unfold splitChar
    by_cases hc : c = sep <;> simp [hc]

theorem splitChar_headD (sep : Char) (s : List Char) :
    (splitChar sep s).headD [] = s.takeWhile (fun c => c != sep) := by
  induction s with
  | nil => simp [splitChar]
  | cons c rest ih =>
    unfold splitChar
    by_cases hc : c = sep
    · simp [hc, List.takeWhile_cons]
    · have ih2 : (splitChar sep rest).head?.getD [] =
          List.takeWhile (fun c => c != sep) rest := by
        rw [← List.headD_eq_head?]
        exact ih
      simp [hc, List.takeWhile_cons, ih2]

theorem splitChar_no_sep (sep : Char) (s : List Char) (h : sep ∉ s) :
    splitChar sep s = [s] := by
  induction s with
  | nil => rfl
  | cons c rest ih =>
    have hc : c ≠ sep := fun he => h (he ▸ List.mem_cons_self c rest)
    have hrest : sep ∉ rest := fun he => h (List.mem_cons_of_mem c he)
    unfold splitChar
    rw [ih hrest]
    simp [hc]

theorem splitChar_first_sep (sep : Char) (a b : List Char) (h : sep ∉ a) :
    splitChar sep (a ++ sep :: b) = a :: splitChar sep b := by
  induction a with
  | nil =>
      simp only [List.nil_append, splitChar]
      simp
  | cons c rest ih =>
    have hc : c ≠ sep := fun he => h (he ▸ List.mem_cons_self c rest)
    have hrest : sep ∉ rest := fun he => h (List.mem_cons_of_mem c he)
    simp only [List.cons_append, splitChar, List.append_eq]
    rw [ih hrest]
    simp [hc]

/-! ## Lemmas: chunked file writing -/

theorem writeFrom_spec (chunks : List (List Char)) (content : List Char) (pos : Nat)
    (h : pos ≤ content.length) :
    writeFrom content pos chunks =
      content.take pos ++ chunks.flatten ++ content.drop (pos + chunks.flatten.length) := by
  induction chunks generalizing content pos with
  | nil => simp [writeFrom]
  | cons c cs ih =>
    have hlenA : (content.take pos ++ c).length = pos + c.length := by
      simp [List.length_take, Nat.min_eq_left h]
    have hlen' : pos + c.length ≤ (overwriteAt content c pos).length := by
      unfold overwriteAt
      rw [List.length_append, hlenA]
      omega
    simp only [writeFrom]
    rw [ih _ _ hlen']
    unfold overwriteAt
    have htake : ((content.take pos ++ c) ++ content.drop (pos + c.length)).take
        (pos + c.length) = content.take pos ++ c := by
      rw [← hlenA, List.take_left]
    have hdrop : ((content.take pos ++ c) ++ content.drop (pos + c.length)).drop
        (pos + c.length + cs.flatten.length) =
          content.drop (pos + c.length + cs.flatten.length) := by
      rw [show pos + c.length + cs.flatten.length
            = (content.take pos ++ c).length + cs.flatten.length by omega,
        List.drop_append, List.drop_drop, hlenA]
    rw [htake, hdrop]
    simp only [List.flatten_cons, List.length_append, List.append_assoc]
    ring_nf

theorem writeChunks_spec (content : List Char) (chunks : List (List Char)) :
    writeChunks content chunks =
      chunks.flatten ++ content.drop chunks.flatten.length := by
  unfold writeChunks
  rw [writeFrom_spec chunks content 0 (Nat.zero_le _)]
  simp

/-! ## Lemmas: registry client state -/

theorem ensure_token_cached (env : RegistryEnv) (st : ClientState) (t : String)
    (h : st.token = some t) : ensure_token env st = (st, .ok ()) := by
  unfold ensure_token
  rw [h]

theorem ensure_token_fetch (env : RegistryEnv) (st : ClientState) (tok : String)
    (hTok : st.token = none)
    (hs : isSuccess env.tokenResp.status = true)
    (hf : (jsonIndex env.tokenResp.body "token").asStr = some tok) :
    ensure_token env st = (⟨some tok, st.tokenFetches + 1⟩, .ok ()) := by
  simp [ensure_token, get_token, hTok, hs, hf]

theorem get_manifest_cached (env : RegistryEnv) (st : ClientState) (t : String)
    (h : st.token = some t) :
    get_manifest env st =
      (st,
        if isSuccess env.manifestResp.status then
          match parseManifest env.manifestResp.body with
          | some m => .ok m
          | none => .error .parseFailure
        else .error (.registryError env.manifestResp.status)) := by
  unfold get_manifest
  rw [ensure_token_cached env st t h]
  dsimp only
  by_cases hs : isSuccess env.manifestResp.status = true
  · simp only [hs, if_pos rfl, if_true]
    cases hp : parseManifest env.manifestResp.body <;> simp [hp]
  · simp [hs]

theorem download_layer_cached (env : RegistryEnv) (st : ClientState) (fs : Fs)
    (dest digest mt : String) (t : String) (h : st.token = some t) :
    download_layer env st fs dest digest mt =
      (st,
        if isSuccess (env.blobResp digest).status then
          (fsInsert fs dest
            (.file (writeChunks (fsFileContent fs dest) (env.blobResp digest).chunks)),
            .ok ())
        else (fs, .error (.registryError (env.blobResp digest).status))) := by
  unfold download_layer
  rw [ensure_token_cached env st t h]
  dsimp only
  by_cases hs : isSuccess (env.blobResp digest).status = true <;> simp [hs]

theorem runCalls_cached (env : RegistryEnv) (calls : List ClientCall) :
    ∀ (st : ClientState) (fs : Fs) (t : String), st.token = some t →
      (runCalls env st fs calls).1 = st := by
  induction calls with
  | nil => intro st fs t h; rfl
  | cons c rest ih =>
    intro st fs t h
    cases c with
    | getManifestCall =>
        unfold runCalls
        dsimp only
        rw [get_manifest_cached env st t h]
        by_cases hs : isSuccess env.manifestResp.status
        · rw [if_pos hs]
          cases hp : parseManifest env.manifestResp.body with
          | some m => exact ih st fs t h
          | none => rfl
        · rw [if_neg hs]
    | downloadLayerCall dest digest mt =>
        unfold runCalls
        dsimp only
        rw [download_layer_cached env st fs dest digest mt t h]
        by_cases hs : isSuccess (env.blobResp digest).status
        · rw [if_pos hs]
          exact ih st _ t h
        · rw [if_neg hs]

/-! ## Lemmas: the pull loop -/

theorem pullLayersLoop_paths (env : RegistryEnv) (destDir : String)
    (layers : List DockerManifestLayer) :
    ∀ (st : ClientState) (fs : Fs) (acc : List String) (t : String),
      st.token = some t →
      (∀ l ∈ layers, (layerHash l.digest).isSome = true ∧
        isSuccess (env.blobResp l.digest).status = true) →
      (pullLayersLoop env destDir st fs layers acc).2.2 =
        .ok (acc ++ layers.map (fun l => pathJoin destDir ((layerHash l.digest).getD ""))) ∧
      (pullLayersLoop env destDir st fs layers acc).1 = st := by
  induction layers with
  | nil => intro st fs acc t h hl; simp [pullLayersLoop]
  | cons l rest ih =>
    intro st fs acc t h hl
    obtain ⟨hhash, hsucc⟩ := hl l (List.mem_cons_self l rest)
    obtain ⟨hashVal, hv⟩ := Option.isSome_iff_exists.mp hhash
    unfold pullLayersLoop
    rw [hv]
    dsimp only
    rw [download_layer_cached env st fs _ l.digest l.media_type t h, if_pos hsucc]
    dsimp only
    have hrest : ∀ x ∈ rest, (layerHash x.digest).isSome = true ∧
        isSuccess (env.blobResp x.digest).status = true :=
      fun x hx => hl x (List.mem_cons_of_mem l hx)
    obtain ⟨h1, h2⟩ := ih st _ (acc ++ [pathJoin destDir hashVal]) t h hrest
    refine ⟨?_, h2⟩
    rw [h1]
    simp [hv]

/-! ## Lemmas: client operations on a fresh state -/

theorem get_manifest_fetch (env : RegistryEnv) (tok : String)
    (hs : isSuccess env.tokenResp.status = true)
    (hf : (jsonIndex env.tokenResp.body "token").asStr = some tok) :
    get_manifest env ClientState.fresh =
      (⟨some tok, 1⟩,
        if isSuccess env.manifestResp.status then
          match parseManifest env.manifestResp.body with
          | some m => .ok m
          | none => .error .parseFailure
        else .error (.registryError env.manifestResp.status)) := by
  unfold get_manifest
  rw [ensure_token_fetch env ClientState.fresh tok rfl hs hf]
  dsimp only
  by_cases hm : isSuccess env.manifestResp.status = true
  · simp only [hm, if_pos rfl, if_true]
    cases hp : parseManifest env.manifestResp.body <;> simp [hp, ClientState.fresh]
  · simp [hm, ClientState.fresh]

theorem download_layer_fetch (env : RegistryEnv) (fs : Fs)
    (dest digest mt tok : String)
    (hs : isSuccess env.tokenResp.status = true)
    (hf : (jsonIndex env.tokenResp.body "token").asStr = some tok) :
    download_layer env ClientState.fresh fs dest digest mt =
      (⟨some tok, 1⟩,
        if isSuccess (env.blobResp digest).status then
          (fsInsert fs dest
            (.file (writeChunks (fsFileContent fs dest) (env.blobResp digest).chunks)),
            .ok ())
        else (fs, .error (.registryError (env.blobResp digest).status))) := by
  unfold download_layer
  rw [ensure_token_fetch env ClientState.fresh tok rfl hs hf]
  dsimp only
  by_cases hb : isSuccess (env.blobResp digest).status = true <;>
    simp [hb, ClientState.fresh]

/-! ## Lemmas: manifest layer deserialization -/

theorem parseLayers_length : ∀ (xs : List Json) (ls : List DockerManifestLayer),
    parseLayers xs = some ls → ls.length = xs.length := by
  intro xs
  induction xs with
  | nil =>
      intro ls h
      simp only [parseLayers, Option.some.injEq] at h
      subst h
      rfl
  | cons j rest ih =>
      intro ls h
      simp only [parseLayers, Option.bind_eq_bind] at h
      cases hp : parseLayer j with
      | none => rw [hp] at h; simp at h
      | some l =>
          rw [hp] at h
          cases hr : parseLayers rest with
          | none => rw [hr] at h; simp at h
          | some tl =>
              rw [hr] at h
              simp only [Option.some_bind, Option.pure_def, Option.some.injEq] at h
              subst h
              simp [ih tl hr]

theorem parseLayers_get : ∀ (xs : List Json) (ls : List DockerManifestLayer),
    parseLayers xs = some ls →
    ∀ (i : Nat) (h1 : i < xs.length) (h2 : i < ls.length),
      parseLayer (xs.get ⟨i, h1⟩) = some (ls.get ⟨i, h2⟩) := by
  intro xs
  induction xs with
  | nil => intro ls h i h1 h2; exact absurd h1 (by simp)
  | cons j rest ih =>
      intro ls h i h1 h2
      simp only [parseLayers, Option.bind_eq_bind] at h
      cases hp : parseLayer j with
      | none => rw [hp] at h; simp at h
      | some l =>
          rw [hp] at h
          cases hr : parseLayers rest with
          | none => rw [hr] at h; simp at h
          | some tl =>
              rw [hr] at h
              simp only [Option.some_bind, Option.pure_def, Option.some.injEq] at h
              subst h
              match i with
              | 0 => simpa using hp
              | n + 1 =>
                  have h1' : n < rest.length := by simpa using h1
                  have h2' : n < tl.length := by simpa using h2
                  simpa using ih tl hr n h1' h2'

/-! ## Lemmas: digest splitting -/

theorem findChar_first (c : Char) (a b : List Char) (h : c ∉ a) :
    findChar c (a ++ c :: b) = some a.length := by
  induction a with
  | nil => simp [findChar]
  | cons x rest ih =>
      have hx : x ≠ c := fun he => h (he ▸ List.mem_cons_self x rest)
      have hrest : c ∉ rest := fun he => h (List.mem_cons_of_mem x he)
      simp [findChar, hx, ih hrest]

theorem layerHash_suffix (algo hex : String) (h : ':' ∉ algo.data) :
    layerHash (algo ++ ":" ++ hex) = some hex := by
  unfold layerHash
  have hdata : (algo ++ ":" ++ hex).data = algo.data ++ ':' :: hex.data := by
    simp [String.data_append]
  rw [hdata, findChar_first ':' algo.data hex.data h]
  dsimp only
  rw [show algo.data.length + 1 = (algo.data ++ [':']).length by simp,
    show algo.data ++ ':' :: hex.data = (algo.data ++ [':']) ++ hex.data by simp,
    List.drop_left]

/-! ## Claim theorems -/

/-- C1: consume_output performs exactly one blocking read into the bounded
1024-byte buffer and closes the read end, and parses the bytes read as a
ChildStatus: for a child whose command exits with code 7 the parent gets
back exactly the status 7 the child serialized, and for a child command
with no exit code (terminated by a signal) it gets the sentinel -1, never
garbage. -/
theorem c1_consume_output_status (code : Option Int)
    (h : (serializeChildStatus (childStatusOfExit code)).length ≤ 1024) :
    consume_output (serializeChildStatus (childStatusOfExit code)) =
      (some (childStatusOfExit code), ⟨1, 1024, true⟩) ∧
    childStatusOfExit (some 7) = ⟨7⟩ ∧
    childStatusOfExit none = ⟨-1⟩ := by
  refine ⟨?_, rfl, rfl⟩
  unfold consume_output
  dsimp only
  rw [List.take_of_length_le h, parseChildStatus_serialize]

/-- Witness for C1 at a child exit code of 7. -/
theorem c1_consume_output_status_witness :
    (serializeChildStatus (childStatusOfExit (some 7))).length ≤ 1024 ∧
    consume_output (serializeChildStatus (childStatusOfExit (some 7))) =
      (some (childStatusOfExit (some 7)), ⟨1, 1024, true⟩) :=
  ⟨by decide, (c1_consume_output_status (some 7) (by decide)).1⟩

/-- C2 counterexample: with a successful auth response whose body lacks a
token field, get_manifest ends in the unwrap panic, which is not a
registry-style error carrying an HTTP status. -/
theorem c2_missing_token_panics :
    (get_manifest envMissingToken ClientState.fresh).2 = .error .unwrapFailure ∧
    RunError.unwrapFailure.isRegistryError = false :=
  ⟨rfl, rfl⟩

/-- C2 (amended): get_manifest fails with an error carrying the HTTP status
when the auth-token response or the manifest response is not successful;
when the auth response is successful but its body lacks a token field, the
code panics (unwrap on None) instead of returning such an error. -/
theorem c2_get_manifest_errors (env : RegistryEnv) :
    (¬ isSuccess env.tokenResp.status = true →
      (get_manifest env ClientState.fresh).2 =
        .error (.registryError env.tokenResp.status)) ∧
    (∀ tok : String, isSuccess env.tokenResp.status = true →
      (jsonIndex env.tokenResp.body "token").asStr = some tok →
      ¬ isSuccess env.manifestResp.status = true →
      (get_manifest env ClientState.fresh).2 =
        .error (.registryError env.manifestResp.status)) ∧
    (isSuccess env.tokenResp.status = true →
      (jsonIndex env.tokenResp.body "token").asStr = none →
      (get_manifest env ClientState.fresh).2 = .error .unwrapFailure) := by
  refine ⟨?_, ?_, ?_⟩
  · intro h
    simp [get_manifest, ensure_token, get_token, ClientState.fresh, h]
  · intro tok hs hf hm
    rw [get_manifest_fetch env tok hs hf]
    simp [hm]
  · intro hs hf
    simp [get_manifest, ensure_token, get_token, ClientState.fresh, hs, hf]

/-- Witness for C2's amended theorem at a 500 auth endpoint and at a missing
token field. -/
theorem c2_get_manifest_errors_witness :
    (get_manifest envBadToken ClientState.fresh).2 = .error (.registryError 500) ∧
    (get_manifest envMissingToken ClientState.fresh).2 = .error .unwrapFailure :=
  ⟨(c2_get_manifest_errors envBadToken).1 (by decide),
    (c2_get_manifest_errors envMissingToken).2.2 (by decide) rfl⟩

/-- C3 counterexample: downloading a two-byte blob over a path that already
holds four bytes leaves the old tail in place (the file is opened without
truncation), so the final content is not the blob bytes. -/
theorem c3_no_truncate_counterexample :
    fsLookup (download_layer envBlobXY ⟨some "t", 1⟩ fsPrior "f" "d" "mt").2.1 "f" =
      some (.file "xycd".data) ∧
    "xycd".data ≠ "xy".data :=
  ⟨rfl, by decide⟩

/-- C3 (amended): on a successful response download_layer writes the body
chunk by chunk from the start of the destination file, creating it when
absent but not truncating it: the final content is the blob bytes followed
by any remnant of longer prior content, and equals the blob exactly when
the prior content is no longer than the blob (in particular when the file
did not exist).  On a non-success status it fails with an error carrying
the HTTP status and leaves the filesystem unchanged. -/
theorem c3_download_layer_spec (env : RegistryEnv) (st : ClientState) (fs : Fs)
    (dest digest mt t : String) (h : st.token = some t) :
    (isSuccess (env.blobResp digest).status = true →
      download_layer env st fs dest digest mt =
        (st, fsInsert fs dest (.file
          ((env.blobResp digest).chunks.flatten ++
            (fsFileContent fs dest).drop (env.blobResp digest).chunks.flatten.length)),
          .ok ())) ∧
    ((fsFileContent fs dest).length ≤ (env.blobResp digest).chunks.flatten.length →
      isSuccess (env.blobResp digest).status = true →
      fsLookup (download_layer env st fs dest digest mt).2.1 dest =
        some (.file (env.blobResp digest).chunks.flatten)) ∧
    (¬ isSuccess (env.blobResp digest).status = true →
      download_layer env st fs dest digest mt =
        (st, fs, .error (.registryError (env.blobResp digest).status))) := by
  have hc := download_layer_cached env st fs dest digest mt t h
  refine ⟨?_, ?_, ?_⟩
  · intro hs
    rw [hc, if_pos hs, writeChunks_spec]
  · intro hlen hs
    rw [hc, if_pos hs]
    dsimp only
    rw [fsLookup_fsInsert_self, writeChunks_spec, List.drop_eq_nil_of_le hlen,
      List.append_nil]
  · intro hs
    rw [hc, if_neg hs]

/-- Witness for C3's amended theorem: a two-chunk blob into an absent file
yields exactly the blob bytes. -/
theorem c3_download_layer_spec_witness :
    fsLookup (download_layer envBlobXY ⟨some "t", 1⟩ [] "f" "d" "mt").2.1 "f" =
      some (.file "xy".data) :=
  (c3_download_layer_spec envBlobXY ⟨some "t", 1⟩ [] "f" "d" "mt" "t" rfl).2.1
    (by decide) (by decide)

/-- C4: across any nonempty sequence of consecutive getManifest and
downloadLayer calls on one fresh client whose auth endpoint succeeds with a
token field present, the token is fetched exactly once: the first call
populates the cached field and every later call reuses it. -/
theorem c4_token_fetched_once (env : RegistryEnv) (fs : Fs)
    (call : ClientCall) (rest : List ClientCall) (tok : String)
    (hs : isSuccess env.tokenResp.status = true)
    (hf : (jsonIndex env.tokenResp.body "token").asStr = some tok) :
    ((runCalls env ClientState.fresh fs (call :: rest)).1).tokenFetches = 1 := by
  cases call with
  | getManifestCall =>
      unfold runCalls
      dsimp only
      rcases hg : get_manifest env ClientState.fresh with ⟨st1, r⟩
      have hst1 : st1 = ⟨some tok, 1⟩ := by
        have h1 : (get_manifest env ClientState.fresh).1 = ⟨some tok, 1⟩ := by
          rw [get_manifest_fetch env tok hs hf]
        rw [hg] at h1
        exact h1
      subst hst1
      cases r with
      | ok m =>
          dsimp only
          rw [runCalls_cached env rest ⟨some tok, 1⟩ fs tok rfl]
      | error e => rfl
  | downloadLayerCall dest digest mt =>
      unfold runCalls
      dsimp only
      rcases hg : download_layer env ClientState.fresh fs dest digest mt
        with ⟨st1, fs1, r⟩
      have hst1 : st1 = ⟨some tok, 1⟩ := by
        have h1 : (download_layer env ClientState.fresh fs dest digest mt).1 =
            ⟨some tok, 1⟩ := by
          rw [download_layer_fetch env fs dest digest mt tok hs hf]
        rw [hg] at h1
        exact h1
      subst hst1
      cases r with
      | ok u =>
          dsimp only
          rw [runCalls_cached env rest ⟨some tok, 1⟩ fs1 tok rfl]
      | error e => rfl

/-- Witness for C4: one getManifest call against a working auth endpoint
performs exactly one token fetch. -/
theorem c4_token_fetched_once_witness :
    ((runCalls envEmptyManifest ClientState.fresh [] [.getManifestCall]).1).tokenFetches
      = 1 :=
  c4_token_fetched_once envEmptyManifest [] .getManifestCall [] "t" (by decide) rfl

/-- C5: extract_layers unpacks the archives strictly in the given order into
the destination with overwrite, so the last layer binding a path wins; a
failing archive stops the loop with that error, leaving the destination
holding exactly the already-extracted layers (not transactional). -/
theorem c5_extract_layers_spec :
    (∀ (goods : List ArchiveEntries) (dest : Fs),
      extract_layers (goods.map Except.ok) dest = (none, applyArchives dest goods)) ∧
    (∀ (goods : List ArchiveEntries) (last : ArchiveEntries) (dest : Fs)
        (p : String) (v : Node), lastValue last p = some v →
      fsLookup (extract_layers ((goods ++ [last]).map Except.ok) dest).2 p = some v) ∧
    (∀ (goods : List ArchiveEntries) (e : String)
        (rest : List (Except String ArchiveEntries)) (dest : Fs),
      extract_layers (goods.map Except.ok ++ .error e :: rest) dest =
        (some e, applyArchives dest goods)) := by
  refine ⟨extract_layers_ok, ?_, extract_layers_fail⟩
  intro goods last dest p v hv
  rw [extract_layers_ok]
  dsimp only
  rw [applyArchives_append_single, fsLookup_applyEntries, hv]

/-- Witness for C5: two layers both writing "a"; the final content is the
second layer's. -/
theorem c5_extract_layers_spec_witness :
    lastValue [("a", Node.file "2".data)] "a" = some (.file "2".data) ∧
    fsLookup (extract_layers
      ([[("a", Node.file "1".data)], [("a", Node.file "2".data)]].map Except.ok)
      []).2 "a" = some (.file "2".data) :=
  ⟨rfl, c5_extract_layers_spec.2.1 [[("a", Node.file "1".data)]]
    [("a", Node.file "2".data)] [] "a" (.file "2".data) rfl⟩

/-- C6: deserializing a manifest whose layers field holds descriptors yields
the layers in the same order and count (order round trip), the blob filename
is the digest's hex suffix after the first colon, and the download loop
stores each layer at that filename joined onto the destination directory,
in manifest order. -/
theorem c6_manifest_order_and_filenames :
    (∀ (j : Json) (sv : Nat) (mt : String) (cfg : DockerManifestConfig)
        (xs : List Json) (ls : List DockerManifestLayer),
      (jsonIndex j "schemaVersion").asNat = some sv →
      (jsonIndex j "mediaType").asStr = some mt →
      parseConfig (jsonIndex j "config") = some cfg →
      jsonIndex j "layers" = .arr xs →
      parseLayers xs = some ls →
      parseManifest j = some ⟨sv, mt, cfg, ls⟩ ∧ ls.length = xs.length ∧
        ∀ (i : Nat) (h1 : i < xs.length) (h2 : i < ls.length),
          parseLayer (xs.get ⟨i, h1⟩) = some (ls.get ⟨i, h2⟩)) ∧
    (∀ algo hex : String, ':' ∉ algo.data →
      layerHash (algo ++ ":" ++ hex) = some hex) ∧
    (∀ (env : RegistryEnv) (destDir : String) (st : ClientState) (fs : Fs)
        (layers : List DockerManifestLayer) (t : String),
      st.token = some t →
      (∀ l ∈ layers, (layerHash l.digest).isSome = true ∧
        isSuccess (env.blobResp l.digest).status = true) →
      (pullLayersLoop env destDir st fs layers []).2.2 =
        .ok (layers.map (fun l => pathJoin destDir ((layerHash l.digest).getD "")))) := by
  refine ⟨?_, layerHash_suffix, ?_⟩
  · intro j sv mt cfg xs ls hsv hmt hcfg harr hls
    refine ⟨?_, parseLayers_length xs ls hls, parseLayers_get xs ls hls⟩
    simp [parseManifest, hsv, hmt, hcfg, harr, Json.asArr, hls]
  · intro env destDir st fs layers t ht hl
    have := (pullLayersLoop_paths env destDir layers st fs [] t ht hl).1
    simpa using this

/-- Witness for C6 on a one-layer manifest JSON and a sha256 digest. -/
theorem c6_manifest_order_and_filenames_witness :
    parseManifest (.obj [("schemaVersion", .num 2), ("mediaType", .str "m"),
        ("config", .obj [("mediaType", .str "c"), ("size", .num 1),
          ("digest", .str "sha256:aa")]),
        ("layers", .arr [.obj [("mediaType", .str "l"), ("size", .num 3),
          ("digest", .str "sha256:bb")]])]) =
      some ⟨2, "m", ⟨"c", 1, "sha256:aa"⟩, [⟨"l", 3, "sha256:bb"⟩]⟩ ∧
    layerHash ("sha256" ++ ":" ++ "abc") = some "abc" :=
  ⟨(c6_manifest_order_and_filenames.1
      (.obj [("schemaVersion", .num 2), ("mediaType", .str "m"),
        ("config", .obj [("mediaType", .str "c"), ("size", .num 1),
          ("digest", .str "sha256:aa")]),
        ("layers", .arr [.obj [("mediaType", .str "l"), ("size", .num 3),
          ("digest", .str "sha256:bb")]])])
      2 "m" ⟨"c", 1, "sha256:aa"⟩
      [.obj [("mediaType", .str "l"), ("size", .num 3),
        ("digest", .str "sha256:bb")]]
      [⟨"l", 3, "sha256:bb"⟩] rfl rfl rfl rfl rfl).1,
    c6_manifest_order_and_filenames.2.1 "sha256" "abc" (by decide)⟩

/-- C7: when the sandbox cannot be constructed, main prints a single
diagnostic line and exits with the fixed failure code -1 without ever
executing the target command; when construction succeeds, the process exit
code equals the launched command's exit code. -/
theorem c7_main_exit_codes :
    (∀ (e : RunError) (childExit : Option Int),
      main_model (.error e) childExit = some ⟨-1, 1, false⟩) ∧
    (∀ c : Int, (serializeChildStatus ⟨c⟩).length ≤ 1024 →
      main_model (.ok ()) (some c) = some ⟨c, 0, true⟩) := by
  constructor
  · intro e childExit; rfl
  · intro c h
    unfold main_model sandbox_run
    dsimp only
    unfold consume_output
    dsimp only
    rw [show childStatusOfExit (some c) = ⟨c⟩ from rfl,
      List.take_of_length_le h, parseChildStatus_serialize]

/-- Witness for C7: a failed setup exits -1 with one diagnostic and no
command run; a successful run of a command exiting 5 exits 5. -/
theorem c7_main_exit_codes_witness :
    main_model (.error .parseFailure) none = some ⟨-1, 1, false⟩ ∧
    (serializeChildStatus ⟨5⟩).length ≤ 1024 ∧
    main_model (.ok ()) (some 5) = some ⟨5, 0, true⟩ :=
  ⟨c7_main_exit_codes.1 .parseFailure none, by decide,
    c7_main_exit_codes.2 5 (by decide)⟩

/-- C8: create_dev_null makes dev/null a character device with major 1 and
minor 3, and the mode bits handed to mknod are the decimal literal 666,
that is octal 1232 — not octal 666, so not read/write for all users. -/
theorem c8_dev_null_mode (fs : Fs) :
    fsLookup (create_dev_null fs) "dev/null" =
      some (.charDev 666 (makedev 1 3)) ∧
    modeFromBitsTruncate 666 = 666 ∧
    (666 : Nat) = 1 * 8 ^ 3 + 2 * 8 ^ 2 + 3 * 8 + 2 ∧
    (666 : Nat) ≠ 6 * 8 ^ 2 + 6 * 8 + 6 ∧
    devMajor (makedev 1 3) = 1 ∧ devMinor (makedev 1 3) = 3 := by
  refine ⟨?_, by decide, by norm_num, by norm_num, by decide, by decide⟩
  unfold create_dev_null
  rw [fsLookup_fsInsert_self]
  decide

/-- C9: the image name is the substring before the first colon (the whole
token when there is no colon), and the tag is the segment immediately after
the first colon, defaulting to latest exactly when the token has none. -/
theorem c9_parse_image_spec (a b : List Char) (h : ':' ∉ a) :
    parse_image ⟨a⟩ = (⟨a⟩, "latest") ∧
    parse_image ⟨a ++ ':' :: b⟩ = (⟨a⟩, ⟨b.takeWhile (fun c => c != ':')⟩) ∧
    (∀ s : List Char, (parse_image ⟨s⟩).1 =
      ⟨s.takeWhile (fun c => c != ':')⟩) := by
  refine ⟨?_, ?_, ?_⟩
  · unfold parse_image
    rw [show (String.mk a).data = a from rfl, splitChar_no_sep ':' a h]
    rfl
  · unfold parse_image
    rw [show (String.mk (a ++ ':' :: b)).data = a ++ ':' :: b from rfl,
      splitChar_first_sep ':' a b h]
    dsimp only
    cases hsb : splitChar ':' b with
    | nil => exact absurd hsb (splitChar_ne_nil ':' b)
    | cons hd tl =>
        have hhd : hd = b.takeWhile (fun c => c != ':') := by
          have := splitChar_headD ':' b
          rw [hsb, List.headD_cons] at this
          exact this
        simp [hhd]
  · intro s
    unfold parse_image
    dsimp only
    rw [splitChar_headD ':' s]

/-- Witness for C9 on the tokens ubuntu and ubuntu:22.04. -/
theorem c9_parse_image_spec_witness :
    (':' ∉ "ubuntu".data) ∧
    parse_image "ubuntu" = ("ubuntu", "latest") ∧
    parse_image "ubuntu:22.04" = ("ubuntu", "22.04") :=
  ⟨by decide,
    (c9_parse_image_spec "ubuntu".data "22.04".data (by decide)).1,
    (c9_parse_image_spec "ubuntu".data "22.04".data (by decide)).2.1⟩

/-- C10: with a manifest of zero layer descriptors, pull_image_layers
returns the empty path list, extract_layers over no archives succeeds
without touching the destination, and init_sandbox_root succeeds with a
root holding exactly the builder-created entries: dev, the dev/null device
node, the empty tmp directory and the empty old_root escape point. -/
theorem c10_empty_manifest_root (env : RegistryEnv)
    (decode : List Char → Except String ArchiveEntries) (scratch : Fs)
    (tok : String) (m : DockerManifest)
    (hs : isSuccess env.tokenResp.status = true)
    (hf : (jsonIndex env.tokenResp.body "token").asStr = some tok)
    (hm : isSuccess env.manifestResp.status = true)
    (hp : parseManifest env.manifestResp.body = some m)
    (hl : m.layers = []) :
    pull_image_layers env "/tmp/" scratch = (⟨some tok, 1⟩, scratch, .ok []) ∧
    (∀ dest : Fs, extract_layers [] dest = (none, dest)) ∧
    init_sandbox_root env decode scratch =
      .ok [("dev", .dir), ("dev/null", .charDev 666 (makedev 1 3)),
        ("tmp", .dir), ("old_root", .dir)] := by
  have hpull : pull_image_layers env "/tmp/" scratch =
      (⟨some tok, 1⟩, scratch, .ok []) := by
    unfold pull_image_layers
    rw [get_manifest_fetch env tok hs hf, if_pos hm, hp]
    dsimp only
    rw [hl]
    rfl
  refine ⟨hpull, fun dest => rfl, ?_⟩
  unfold init_sandbox_root
  rw [hpull]
  rfl

/-- Witness for C10 against the zero-layer manifest fixture. -/
theorem c10_empty_manifest_root_witness :
    init_sandbox_root envEmptyManifest (fun _ => .ok []) [] =
      .ok [("dev", .dir), ("dev/null", .charDev 666 (makedev 1 3)),
        ("tmp", .dir), ("old_root", .dir)] :=
  (c10_empty_manifest_root envEmptyManifest (fun _ => .ok []) [] "t" mEmpty
    (by decide) rfl (by decide) rfl rfl).2.2

end DockerSpec
